import Mathlib

/-!
Shallow embedding of `src/archivebot.py` (the archivey Slack archiving bot).

Pure Lean translations of the query parser and executor (`handle_query`),
the event dispatcher (`handle_message`), the directory cache
(`update_users`, `update_channels`, the four lookup helpers) and the
visibility gate (`can_query_channel`).  External effects are made
explicit: the state `St` carries the contents of the messages table, the
ordered list of outbound sends, the ordered list of store operations and
the audit log lines.  Timestamp rendering through `datetime` is
parameterized by a formatter function, because no claim under study
depends on the formatted text (local-time formatting is not portable
anyway).

The messages table is modelled with the five-column row shape used by
every SELECT and INSERT statement in the program
(`id, message, user, channel, timestamp`).  The CREATE TABLE statement at
line 33 of the source actually declares only four columns
(`message, user, channel, timestamp`); the definitions around
`messagesCreateColumns` below capture that discrepancy, which makes the
archival INSERT fail on a freshly created database.
-/

deriving instance DecidableEq for Except

set_option maxRecDepth 16384

namespace Archivebot

/-! ## Python string primitives, on explicit character lists -/

/-- Python `str.lower()` restricted to ASCII (all data in the claims is
ASCII; Lean `Char.toLower` has the same ASCII behavior). -/
def strLower (s : String) : String := ⟨s.data.map Char.toLower⟩

/-- Python slicing `s[:n]` by code points. -/
def takeStr (n : Nat) (s : String) : String := ⟨s.data.take n⟩

/-- Python `s.replace(<at sign>, <empty>)`: removes every `@`. -/
def stripAt (s : String) : String := ⟨s.data.filter (fun c => !(c == '@'))⟩

/-- Python `s.strip()` (ASCII whitespace). -/
def pyStrip (s : String) : String :=
  ⟨((s.data.dropWhile Char.isWhitespace).reverse.dropWhile Char.isWhitespace).reverse⟩

/-- Helper for `pySplit`: accumulates the current token (reversed). -/
def wsSplitAux : List Char → List Char → List String
  | [], acc => if acc.isEmpty then [] else [⟨acc.reverse⟩]
  | c :: cs, acc =>
    if c.isWhitespace then
      if acc.isEmpty then wsSplitAux cs [] else ⟨acc.reverse⟩ :: wsSplitAux cs []
    else wsSplitAux cs (c :: acc)

/-- Python `str.split()` with no argument: split on whitespace runs,
dropping empty tokens. -/
def pySplit (s : String) : List String := wsSplitAux s.data []

/-- Helper for `charSplit`. -/
def charSplitAux (sep : Char) : List Char → List Char → List String
  | [], acc => [⟨acc.reverse⟩]
  | c :: cs, acc =>
    if c == sep then ⟨acc.reverse⟩ :: charSplitAux sep cs [] else charSplitAux sep cs (c :: acc)

/-- Python `str.split(sep)` for a one-character separator: keeps empty
pieces, always returns at least one piece. -/
def charSplit (sep : Char) (s : String) : List String := charSplitAux sep s.data []

/-- Python string-join with a separator. -/
def joinSep (sep : String) : List String → String
  | [] => ""
  | [x] => x
  | x :: y :: xs => x ++ sep ++ joinSep sep (y :: xs)

/-- Value of a digit run. -/
def digitsVal (cs : List Char) : Nat :=
  cs.foldl (fun a c => a * 10 + (c.toNat - 48)) 0

/-- Two consecutive underscores somewhere in the list. -/
def hasDoubleUnderscore (cs : List Char) : Bool :=
  (cs.zip cs.tail).any (fun p => p.1 == '_' && p.2 == '_')

/-- Python `int(s)` for base 10: optional surrounding whitespace, optional
sign, a nonempty digit run possibly using single underscores between
digits.  (Python additionally accepts non-ASCII decimal digits, which no
claim touches.)  Returns `none` where Python raises `ValueError`. -/
def pyInt? (s : String) : Option Int :=
  let t := (pyStrip s).data
  let signVal : Int × List Char :=
    match t with
    | '+' :: r => (1, r)
    | '-' :: r => (-1, r)
    | r => (1, r)
  let sign := signVal.1
  let ds := signVal.2
  if (!ds.isEmpty) && ds.all (fun c => c.isDigit || c == '_') &&
     (ds.headD '_' != '_') && (ds.getLastD '_' != '_') && !hasDoubleUnderscore ds
  then some (sign * (digitsVal (ds.filter (fun c => !(c == '_'))) : Int))
  else none

/-- Exponent part of a Python float literal (input already lowercased and
sign-stripped up front). -/
def floatExpOk : List Char → Bool
  | [] => true
  | 'e' :: r =>
    let r2 := match r with
      | '+' :: q => q
      | '-' :: q => q
      | q => q
    (!r2.isEmpty) && r2.all Char.isDigit
  | _ => false

/-- Core of `pyFloatOk`: sign already stripped, input lowercased. -/
def pyFloatOkCore (cs : List Char) : Bool :=
  if cs == ['i', 'n', 'f'] || cs == ['i', 'n', 'f', 'i', 'n', 'i', 't', 'y'] ||
     cs == ['n', 'a', 'n'] then true
  else
    let intPart := cs.takeWhile Char.isDigit
    let rest := cs.dropWhile Char.isDigit
    match rest with
    | '.' :: r2 =>
      let frac := r2.takeWhile Char.isDigit
      let r3 := r2.dropWhile Char.isDigit
      ((!intPart.isEmpty) || (!frac.isEmpty)) && floatExpOk r3
    | r => (!intPart.isEmpty) && floatExpOk r

/-- Whether Python `float(s)` succeeds (underscore grouping omitted — no
claim touches it).  Only success or failure matters to the claims; the
numeric value feeds `datetime` formatting, which is parameterized away. -/
def pyFloatOk (s : String) : Bool :=
  let t := (pyStrip s).data.map Char.toLower
  match t with
  | '+' :: r => pyFloatOkCore r
  | '-' :: r => pyFloatOkCore r
  | r => pyFloatOkCore r

/-- ASCII lowercasing used by SQLite `LIKE`. -/
def lchar (c : Char) : Char := c.toLower

/-- `likeAny f cs`: does `f` hold of some suffix of `cs`?  (How a `%`
wildcard consumes zero or more characters.) -/
def likeAny (f : List Char → Bool) : List Char → Bool
  | [] => f []
  | c :: ct => f (c :: ct) || likeAny f ct

/-- SQLite `LIKE` matching: `%` matches any run, `_` any one character,
other characters match ASCII case-insensitively. -/
def likeM : List Char → List Char → Bool
  | [], cs => cs.isEmpty
  | p :: pr, cs =>
    if p == '%' then likeAny (likeM pr) cs
    else
      match cs with
      | [] => false
      | c :: ct => (p == '_' || lchar p == lchar c) && likeM pr ct

/-- `LIKE` on strings: pattern first, subject second. -/
def sqliteLike (pat s : String) : Bool := likeM pat.data s.data

/-- The token shape the parser treats as emoji text:
`len(p) > 2 and p[0] == colon and p[-1] == colon`. -/
def emojiShape (p : String) : Bool :=
  decide (p.data.length > 2) && (p.data.headD ' ' == ':') && (p.data.getLastD ' ' == ':')

/-! ## Data model -/

/-- A messages-table row in the five-column shape used by the SELECT and
INSERT statements of the program. -/
structure Row where
  id : String
  message : String
  user : String
  channel : String
  timestamp : String
deriving Repr, DecidableEq

/-- Transient visibility metadata held in `ENV` for one channel. -/
structure ChannelInfo where
  is_private : Bool
  members : List String
deriving Repr, DecidableEq

/-- One entry of a `channels.list` or `groups.list` backend response.
`has_is_group` records whether the JSON object carries the `is_group`
key. -/
structure Convo where
  name : String
  id : String
  has_is_group : Bool
  is_private : Bool
  members : List String
deriving Repr, DecidableEq

/-- One entry of a `users.list` backend response. -/
structure Member where
  name : String
  id : String
  image_72 : Option String
deriving Repr, DecidableEq

/-- The Slack backend as seen through the three bulk list calls. -/
structure Backend where
  members : List Member
  channels_list : List Convo
  groups_list : List Convo
deriving Repr, DecidableEq

/-- The process-wide `ENV` dictionary: four name maps plus the
per-channel visibility table, all modelled as ordered pair lists with
last-binding-wins lookup (Python dict built from a pair list). -/
structure Env where
  user_id : List (String × String)
  id_user : List (String × String)
  channel_id : List (String × String)
  id_channel : List (String × String)
  channel_info : List (String × ChannelInfo)
deriving Repr, DecidableEq

/-- Python dict lookup over a pair list: the last binding wins. -/
def dget {α : Type} : List (String × α) → String → Option α
  | [], _ => none
  | p :: ps, k =>
    match dget ps k with
    | some v => some v
    | none => if p.1 == k then some p.2 else none

/-- Python `k in d`. -/
def dmem {α : Type} (l : List (String × α)) (k : String) : Bool :=
  l.any (fun p => p.1 == k)

/-- Python `d[k] = v` on a dict modelled as a pair list. -/
def dset {α : Type} (l : List (String × α)) (k : String) (v : α) : List (String × α) :=
  l.filter (fun p => !(p.1 == k)) ++ [(k, v)]

/-- One recorded access to the SQLite store. -/
inductive StoreOp where
  | insertUsers (rows : List (String × String × String))
  | insertChannels (rows : List (String × String))
  | selectMessages
  | insertMessage (row : Row)
deriving Repr, DecidableEq

/-- The explicit state threaded through the embedded program: the `ENV`
cache, the messages table contents, outbound sends `(text, channel)` in
order, store accesses in order, and audit-log lines. -/
structure St where
  env : Env
  messages : List Row
  sent : List (String × String)
  ops : List StoreOp
  auditLog : List String
deriving Repr, DecidableEq

/-- Python exceptions that the embedded code can raise. -/
inductive PyExc where
  | valueError (msg : String)
  | indexError
  | keyError
  | typeError
  | attributeError
deriving Repr, DecidableEq

/-- The default avatar URL from `update_users` (source line 67). -/
def avatarDefault : String :=
  "https://secure.gravatar.com/avatar/c3a07fba0c4787b0ef1d417838eae9c5.jpg?s=32&d=https%3A%2F%2Ffst.slack-edge.com%2F66f9%2Fimg%2Favatars%2Fava_0024-32.png"

/-! ## Directory cache -/

/-- `update_users`: wholesale refresh of the two user maps from the
backend, plus an upsert of every user row into the store. -/
def update_users (b : Backend) (st : St) : St :=
  let env := st.env
  let env2 := { env with
    user_id := b.members.map (fun m => (m.name, m.id)),
    id_user := b.members.map (fun m => (m.id, m.name)) }
  let rows := b.members.map (fun m => (m.name, m.id, m.image_72.getD avatarDefault))
  { st with env := env2, ops := st.ops ++ [StoreOp.insertUsers rows] }

/-- `get_user_name`: cached lookup with one refresh on a miss. -/
def get_user_name (b : Backend) (st : St) (uid : String) : St × Option String :=
  let st2 := if dmem st.env.id_user uid then st else update_users b st
  (st2, dget st2.env.id_user uid)

/-- `get_user_id`: cached lookup with one refresh on a miss. -/
def get_user_id (b : Backend) (st : St) (name : String) : St × Option String :=
  let st2 := if dmem st.env.user_id name then st else update_users b st
  (st2, dget st2.env.user_id name)

/-- The visibility entry `update_channels` computes for one backend
entry: `is_private` is true when the entry carries the `is_group` key
(short-circuiting `or`), else the entry field. -/
def convoInfo (m : Convo) : ChannelInfo := ⟨m.has_is_group || m.is_private, m.members⟩

/-- `update_channels`: wholesale refresh of the two channel maps from
`channels.list + groups.list`, accumulation of the visibility table,
plus an upsert of every channel row into the store. -/
def update_channels (b : Backend) (st : St) : St :=
  let info := b.channels_list ++ b.groups_list
  let env := st.env
  let tbl := info.foldl (fun acc m => dset acc m.id (convoInfo m)) env.channel_info
  let env2 := { env with
    channel_id := info.map (fun m => (m.name, m.id)),
    id_channel := info.map (fun m => (m.id, m.name)),
    channel_info := tbl }
  let chanRows := info.map (fun m => (m.name, m.id))
  { st with env := env2, ops := st.ops ++ [StoreOp.insertChannels chanRows] }

/-- `get_channel_name`: cached lookup with one refresh on a miss. -/
def get_channel_name (b : Backend) (st : St) (cid : String) : St × Option String :=
  let st2 := if dmem st.env.id_channel cid then st else update_channels b st
  (st2, dget st2.env.id_channel cid)

/-- `get_channel_id`: cached lookup with one refresh on a miss. -/
def get_channel_id (b : Backend) (st : St) (name : String) : St × Option String :=
  let st2 := if dmem st.env.channel_id name then st else update_channels b st
  (st2, dget st2.env.channel_id name)

/-- `send_message`: records an outbound `(text, channel)` send. -/
def send_message (st : St) (message channel : String) : St :=
  { st with sent := st.sent ++ [(message, channel)] }

/-- `can_query_channel`: when the channel id is absent from the id-name
map the function falls off the end and returns Python `None` (modelled
`Option.none`); when present, it reads the visibility table (a missing
table entry would be a `KeyError`) and answers
`not is_private or user in members`. -/
def can_query_channel (env : Env) (channel_id user_id : String) :
    Except PyExc (Option Bool) :=
  if dmem env.id_channel channel_id then
    match dget env.channel_info channel_id with
    | some info => Except.ok (some ((!info.is_private) || info.members.contains user_id))
    | none => Except.error PyExc.keyError
  else Except.ok none

/-- Truthiness of the `can_query_channel` result at its only call site. -/
def truthy : Option Bool → Bool
  | some b => b
  | none => false

/-- Python truthiness of an optional string (used for `if user:` and the
like). -/
def pyTruthy : Option String → Bool
  | some s => !s.isEmpty
  | none => false

/-! ## Query parsing and execution (`handle_query`) -/

/-- The structured query the parse loop accumulates. -/
structure Plan where
  text : List String
  user : Option String
  channel : Option String
  sort : Option String
  limit : Int
deriving Repr, DecidableEq

/-- Initial parse state: empty text, no filters, limit 10. -/
def initPlan : Plan := ⟨[], none, none, none, 10⟩

/-- Python `s.replace(<hash sign>, <empty>)`. -/
def stripHash (s : String) : String := ⟨s.data.filter (fun c => !(c == '#'))⟩

/-- One iteration of the parse loop of `handle_query` on one token:
emoji-shaped tokens go to the text list verbatim, colon-free tokens go to
the text list, `from:`/`in:`/`sort:`/`limit:` set filters (raising
`ValueError` on an unresolvable or invalid value), anything else is
ignored. -/
def processToken (b : Backend) (st : St) (ps : Plan) (p : String) :
    St × Except PyExc Plan :=
  if emojiShape p then (st, Except.ok { ps with text := ps.text ++ [p] })
  else
    let parts := charSplit ':' p
    if parts.length == 1 then
      (st, Except.ok { ps with text := ps.text ++ [parts.headD ""] })
    else if parts.length == 2 then
      let key := parts.headD ""
      let val := parts.getD 1 ""
      if key == "from" then
        let r := get_user_id b st (pyStrip (stripAt val))
        match r.2 with
        | some uid => (r.1, Except.ok { ps with user := some uid })
        | none => (r.1, Except.error (PyExc.valueError ("User " ++ val ++ " not found")))
      else if key == "in" then
        let r := get_channel_id b st (pyStrip (stripHash val))
        match r.2 with
        | some cid => (r.1, Except.ok { ps with channel := some cid })
        | none => (r.1, Except.error (PyExc.valueError ("Channel " ++ val ++ " not found")))
      else if key == "sort" then
        if val == "asc" || val == "desc" then (st, Except.ok { ps with sort := some val })
        else (st, Except.error (PyExc.valueError ("Invalid sort order " ++ val)))
      else if key == "limit" then
        match pyInt? val with
        | some n => (st, Except.ok { ps with limit := n })
        | none => (st, Except.error (PyExc.valueError (val ++ " not a valid number")))
      else (st, Except.ok ps)
    else (st, Except.ok ps)

/-- The parse loop over all tokens; aborted by the first raise. -/
def processTokens (b : Backend) : St → Plan → List String → St × Except PyExc Plan
  | st, ps, [] => (st, Except.ok ps)
  | st, ps, p :: rest =>
    match processToken b st ps p with
    | (st2, Except.ok ps2) => processTokens b st2 ps2 rest
    | (st2, Except.error e) => (st2, Except.error e)

/-- `convert_timestamp`: `int` of the part before the first dot, then
`strftime`; the formatter is the parameter `tfq`, the `int` failure is a
real `ValueError`. -/
def convert_timestamp (tfq : Int → String) (ts : String) : Except PyExc String :=
  match pyInt? ((charSplit '.' ts).headD "") with
  | some n => Except.ok (tfq n)
  | none => Except.error (PyExc.valueError "invalid literal for int with base 10")

/-- The result comprehension of `handle_query`: for each fetched row the
guard `can_query_channel(row.channel, event[user])` runs first (a missing
user key is a `KeyError`), then the line is formatted, resolving the
author name (Python formats an unresolved `None` as the string `None`),
the timestamp (possible `ValueError`), and the channel name
(concatenating `#` with an unresolved `None` is a `TypeError`). -/
def renderRows (b : Backend) (tfq : Int → String) (requester : Option String) :
    St → List Row → St × Except PyExc (List String)
  | st, [] => (st, Except.ok [])
  | st, r :: rest =>
    match requester with
    | none => (st, Except.error PyExc.keyError)
    | some u =>
      match can_query_channel st.env r.channel u with
      | Except.error e => (st, Except.error e)
      | Except.ok ob =>
        if truthy ob then
          let r1 := get_user_name b st r.user
          match convert_timestamp tfq r.timestamp with
          | Except.error e => (r1.1, Except.error e)
          | Except.ok tstr =>
            let r2 := get_channel_name b r1.1 r.channel
            match r2.2 with
            | none => (r2.1, Except.error PyExc.typeError)
            | some cname =>
              let line := r.message ++ " (@" ++ (r1.2.getD "None") ++ ", " ++ tstr ++
                ", #" ++ cname ++ ", id:" ++ r.id ++ ")"
              match renderRows b tfq requester r2.1 rest with
              | (st3, Except.error e) => (st3, Except.error e)
              | (st3, Except.ok lines) => (st3, Except.ok (line :: lines))
        else renderRows b tfq requester st rest

/-- The WHERE clause of the free-text SELECT: body LIKE the wildcard
pattern, plus the author and channel equality filters when their Python
values are truthy. -/
def ftFilter (msgs : List Row) (pat : String) (user chan : Option String) : List Row :=
  msgs.filter (fun r =>
    sqliteLike pat r.message &&
    (if pyTruthy user then r.user == user.getD "" else true) &&
    (if pyTruthy chan then r.channel == chan.getD "" else true))

/-- ORDER BY timestamp, when a sort direction was parsed (text rows
compare as strings). -/
def applySort (sort : Option String) (rows : List Row) : List Row :=
  match sort with
  | some s =>
    if s == "desc" then List.insertionSort (fun a b => b.timestamp ≤ a.timestamp) rows
    else if s == "asc" then List.insertionSort (fun a b => a.timestamp ≤ b.timestamp) rows
    else rows
  | none => rows

/-- `cursor.fetchmany(limit)`: CPython sqlite3 returns every remaining
row when the size is zero or negative, and at most size rows
otherwise. -/
def fetchmany (lim : Int) (rows : List Row) : List Row :=
  if lim ≤ 0 then rows else rows.take lim.toNat

/-- The id-lookup branch: `WHERE id LIKE ?`, fetched with the default
limit 10. -/
def idModeRows (msgs : List Row) (uid : String) : List Row :=
  fetchmany 10 (msgs.filter (fun r => sqliteLike uid r.id))

/-- Tail of `handle_query` after the fetch: render the surviving rows,
send the newline-joined lines, or the fixed no-results message when the
fetch or the join is empty; a `ValueError` raised while rendering is
caught and its text sent instead. -/
def finishQuery (b : Backend) (tfq : Int → String) (st : St) (requester : Option String)
    (eventChannel : String) (res : List Row) : St × Option PyExc :=
  if res.isEmpty then (send_message st "No results found" eventChannel, none)
  else
    match renderRows b tfq requester st res with
    | (st2, Except.error (PyExc.valueError m)) => (send_message st2 m eventChannel, none)
    | (st2, Except.error e) => (st2, some e)
    | (st2, Except.ok lines) =>
      let msg := joinSep "\n" lines
      if msg == "" then (send_message st2 "No results found" eventChannel, none)
      else (send_message st2 msg eventChannel, none)

/-- A sub-object of an event (`message` / `previous_message`). -/
structure SubMsg where
  text : String
  user : Option String
  ts : String
deriving Repr, DecidableEq

/-- An inbound real-time event, with optional fields modelling missing
dictionary keys. -/
structure Event where
  subtype : Option String
  text : Option String
  channel : String
  user : Option String
  ts : Option String
  message : Option SubMsg
  previous_message : Option SubMsg
deriving Repr, DecidableEq

/-- `handle_query`: lowercase and whitespace-split the text, take the
id-lookup branch when the first token starts `id:`, otherwise run the
parse loop and the free-text SELECT; `ValueError` is caught and its text
sent to the requesting channel.  The second component is an exception
escaping the handler (`none` is a normal return). -/
def handle_query (b : Backend) (tfq : Int → String) (st : St) (ev : Event) :
    St × Option PyExc :=
  match ev.text with
  | none => (st, some PyExc.keyError)
  | some etext =>
    let params := pySplit (strLower etext)
    match params with
    | [] => (st, some PyExc.indexError)
    | p0 :: _ =>
      if takeStr 3 p0 == "id:" then
        let uid := (charSplit ':' p0).getD 1 ""
        let st2 := { st with ops := st.ops ++ [StoreOp.selectMessages] }
        finishQuery b tfq st2 ev.user ev.channel (idModeRows st2.messages uid)
      else
        match processTokens b st initPlan params with
        | (st2, Except.error (PyExc.valueError m)) => (send_message st2 m ev.channel, none)
        | (st2, Except.error e) => (st2, some e)
        | (st2, Except.ok plan) =>
          let pat := "%" ++ joinSep " " plan.text ++ "%"
          let rows := applySort plan.sort (ftFilter st2.messages pat plan.user plan.channel)
          let st3 := { st2 with ops := st2.ops ++ [StoreOp.selectMessages] }
          finishQuery b tfq st3 ev.user ev.channel (fetchmany plan.limit rows)

/-! ## Event dispatch (`handle_message`) -/

/-- The hardcoded display-name override `get_user` (an absent id formats
as the literal string bot). -/
def get_user : Option String → String
  | some "U15HY5TG8" => "Evan"
  | some "U15HSHSS2" => "Tommy"
  | some "U15HZ01QX" => "James"
  | some "U15J5H60P" => "Andrew"
  | some "U15HRTAHL" => "Joe"
  | some i => i
  | none => "bot"

/-- ASCII hexadecimal digit, both cases (the regular expression is
compiled with `re.I`). -/
def hexDigit (c : Char) : Bool :=
  c.isDigit || ('a' ≤ c && c ≤ 'f') || ('A' ≤ c && c ≤ 'F')

/-- `re.match` of the version-4 UUID pattern of `handle_message`: a
match anchored at the start only, so any string beginning with 36
characters of the UUID shape matches. -/
def uuid4Match (s : String) : Bool :=
  match s.data with
  | a1 :: a2 :: a3 :: a4 :: a5 :: a6 :: a7 :: a8 :: h1 ::
    b1 :: b2 :: b3 :: b4 :: h2 :: c1 :: c2 :: c3 :: c4 :: h3 ::
    d1 :: d2 :: d3 :: d4 :: h4 ::
    e1 :: e2 :: e3 :: e4 :: e5 :: e6 :: e7 :: e8 :: e9 :: e10 :: e11 :: e12 :: _ =>
    [a1, a2, a3, a4, a5, a6, a7, a8, b1, b2, b3, b4, c2, c3, c4,
     d2, d3, d4, e1, e2, e3, e4, e5, e6, e7, e8, e9, e10, e11, e12].all hexDigit &&
    (h1 == '-') && (h2 == '-') && (h3 == '-') && (h4 == '-') &&
    (c1 == '4') &&
    (d1 == '8' || d1 == '9' || d1 == 'a' || d1 == 'b' || d1 == 'A' || d1 == 'B')
  | _ => false

/-- INSERT into the messages table under
`UNIQUE(channel, timestamp) ON CONFLICT REPLACE`: conflicting rows are
deleted and the new row is appended (fresh rowid at the end). -/
def replaceInsert (rows : List Row) (r : Row) : List Row :=
  rows.filter (fun q => !(q.channel == r.channel && q.timestamp == r.timestamp)) ++ [r]

/-- The deletion/edit notification phase of `handle_message` (source
lines 252 to 257): builds and sends the notice to the fixed channel
CJ9745N3U exactly as the string concatenation does, with
`strftime(datetime.fromtimestamp(float(...)))` parameterized by `tfn`;
a missing sub-object is an `AttributeError`, an unparsable float a
`ValueError`, an unresolvable channel name a `TypeError`. -/
def noticePhase (b : Backend) (tfn : String → String) (st : St) (ev : Event) :
    St × Option PyExc :=
  if ev.subtype == some "message_deleted" then
    match ev.previous_message with
    | none => (st, some PyExc.attributeError)
    | some prev =>
      if !pyFloatOk prev.ts then
        (st, some (PyExc.valueError "could not convert string to float"))
      else
        let r := get_channel_name b st ev.channel
        match r.2 with
        | none => (r.1, some PyExc.typeError)
        | some cname =>
          let notice := "The following message from @" ++ get_user prev.user ++
            " (sent on " ++ tfn prev.ts ++ ") was deleted from #" ++ cname ++
            "\n>" ++ prev.text ++ "\n"
          (send_message r.1 notice "CJ9745N3U", none)
  else if ev.subtype == some "message_changed" then
    match ev.message with
    | none => (st, some PyExc.attributeError)
    | some msg =>
      match ev.previous_message with
      | none => (st, some PyExc.attributeError)
      | some prev =>
        if !pyFloatOk prev.ts then
          (st, some (PyExc.valueError "could not convert string to float"))
        else
          let r := get_channel_name b st ev.channel
          match r.2 with
          | none => (r.1, some PyExc.typeError)
          | some cname =>
            let notice := "@" ++ get_user msg.user ++ " edited their message (sent on " ++
              tfn prev.ts ++ ") from #" ++ cname ++ ": \n>" ++ prev.text ++
              "\n to say: \n>" ++ msg.text
            (send_message r.1 notice "CJ9745N3U", none)
  else (st, none)

/-- `handle_message`: the event dispatcher.  `fresh` is the UUID that
`str(uuid.uuid4())` would generate for an archival insert; `tfq` and
`tfn` are the two timestamp formatters.  After the notification phase:
return on missing text or a bot-message subtype; direct messages
(channel id starting D) append an audit line and run `handle_query`; a
text starting with the bot mention token runs `handle_query` on a
rewritten `id:` text when the second token matches the UUID pattern (no
second token is an `IndexError`); an event without a user is dropped;
anything else is archived with replace-on-conflict semantics. -/
def handle_message (b : Backend) (tfq : Int → String) (tfn : String → String)
    (fresh : String) (st : St) (ev : Event) : St × Option PyExc :=
  match noticePhase b tfn st ev with
  | (st1, some e) => (st1, some e)
  | (st1, none) =>
    match ev.text with
    | none => (st1, none)
    | some etext =>
      if ev.subtype == some "bot_message" then (st1, none)
      else
        match ev.channel.data with
        | [] => (st1, some PyExc.indexError)
        | c0 :: _ =>
          if c0 == 'D' then
            let line := get_user ev.user ++ "|" ++ etext
            let st2 := { st1 with auditLog := st1.auditLog ++ [line] }
            handle_query b tfq st2 ev
          else if takeStr 12 etext == "<@UJ8U80MKL>" then
            match pySplit etext with
            | _ :: a1 :: _ =>
              if uuid4Match a1 then
                handle_query b tfq st1 { ev with text := some ("id:" ++ a1) }
              else (st1, none)
            | _ => (st1, some PyExc.indexError)
          else
            match ev.user with
            | none => (st1, none)
            | some u =>
              match ev.ts with
              | none => (st1, some PyExc.keyError)
              | some ts =>
                let row : Row := ⟨fresh, etext, u, ev.channel, ts⟩
                let st2 := { st1 with messages := replaceInsert st1.messages row }
                ({ st2 with ops := st2.ops ++ [StoreOp.insertMessage row] }, none)

/-! ## The messages-table DDL of source line 33 -/

/-- The column list of the CREATE TABLE statement for `messages` at
source line 33: four columns, with no id column. -/
def messagesCreateColumns : List String :=
  ["message", "user", "channel", "timestamp"]

/-- The five values the archival branch supplies to the bare
`INSERT INTO messages VALUES` statement with five placeholders. -/
def archivalInsertValues (fresh text user channel ts : String) : List String :=
  [fresh, text, user, channel, ts]

/-- SQLite rule for a bare INSERT without a column list: the value list
must have exactly one value per table column, otherwise the statement
fails (an OperationalError). -/
def execBareInsert (tableColumns vals : List String) : Except String Unit :=
  if vals.length == tableColumns.length then Except.ok ()
  else Except.error "table messages has a different number of columns than values supplied"

/-! ## Classification helpers for the theorems -/

/-- Wildcard-free `LIKE` patterns (no percent sign, no underscore). -/
def noWild (cs : List Char) : Bool := cs.all (fun c => !(c == '%') && !(c == '_'))

/-- Store reads of the messages table. -/
def StoreOp.isSelect : StoreOp → Bool
  | StoreOp.selectMessages => true
  | _ => false

/-- Directory upserts (users or channels rows). -/
def StoreOp.isDirWrite : StoreOp → Bool
  | StoreOp.insertUsers _ => true
  | StoreOp.insertChannels _ => true
  | _ => false

/-- States reachable from `st` by directory refreshes only: same sends,
same messages table, same audit log, and only directory upserts appended
to the operation list. -/
def RefreshOnly (st st2 : St) : Prop :=
  st2.sent = st.sent ∧ st2.messages = st.messages ∧ st2.auditLog = st.auditLog ∧
  ∃ l, st2.ops = st.ops ++ l ∧ ∀ op ∈ l, StoreOp.isDirWrite op = true

/-! ## Concrete evaluation states shared by the witnesses and
counterexamples -/

/-- A small backend: one user, one public channel, no groups. -/
def exBackend : Backend :=
  ⟨[⟨"bob", "U2", none⟩], [⟨"general", "C1", false, false, ["U1", "U2"]⟩], []⟩

/-- A warm cache matching `exBackend`. -/
def exEnv : Env :=
  ⟨[("bob", "U2")], [("U2", "bob")], [("general", "C1")], [("C1", "general")],
   [("C1", ⟨false, ["U1", "U2"]⟩)]⟩

/-- A store holding two archived messages with distinct ids. -/
def exSt : St :=
  ⟨exEnv, [⟨"aaaa", "m1", "U2", "C1", "1.0"⟩, ⟨"bbbb", "m2", "U2", "C1", "2.0"⟩], [], [], []⟩

/-- A concrete stand-in for the query timestamp formatter. -/
def exTfq : Int → String := fun n => toString n

/-- A concrete stand-in for the notice timestamp formatter. -/
def exTfn : String → String := fun s => s

/-- A direct-message query whose text is the wildcard id lookup. -/
def exEvIdPct : Event := ⟨none, some "id:%", "D9", some "U1", some "3.0", none, none⟩

/-- A direct-message query with an unresolvable author filter. -/
def exEvFrom : Event := ⟨none, some "hi from:alice", "D9", some "U1", some "3.0", none, none⟩

/-- A direct-message query whose text is empty. -/
def exEvEmpty : Event := ⟨none, some "", "D9", some "U1", some "3.0", none, none⟩

/-- A cache with one private channel (member U9 only) and one public
channel. -/
def exEnvVis : Env :=
  ⟨[("bob", "U2")], [("U2", "bob")], [("priv", "CP"), ("pub", "CB")],
   [("CP", "priv"), ("CB", "pub")],
   [("CP", ⟨true, ["U9"]⟩), ("CB", ⟨false, []⟩)]⟩

/-- Three stored rows matching the free text `x`, the first in the
private channel. -/
def exStVis : St :=
  ⟨exEnvVis,
   [⟨"i1", "x hello", "U2", "CP", "1.0"⟩, ⟨"i2", "x2", "U2", "CB", "2.0"⟩,
    ⟨"i3", "x3", "U2", "CB", "3.0"⟩], [], [], []⟩

/-- A free-text query with an explicit limit of two. -/
def exEvLimit : Event := ⟨none, some "x limit:2", "D9", some "U1", some "3.0", none, none⟩

/-- A free-text query with an explicit limit of zero. -/
def exEvLimit0 : Event := ⟨none, some "x limit:0", "D9", some "U1", some "3.0", none, none⟩

/-- A direct-message query with an invalid sort direction. -/
def exEvSortBad : Event := ⟨none, some "hi sort:up", "D9", some "U1", some "3.0", none, none⟩

/-- A store holding one row whose timestamp is not numeric, so rendering
it raises a ValueError inside `convert_timestamp`. -/
def exStBadTs : St := ⟨exEnv, [⟨"idz", "zz", "U2", "C1", "abc"⟩], [], [], []⟩

/-- A store holding the original body of the edited message. -/
def exStEdit : St := ⟨exEnv, [⟨"i9", "old", "U1", "C1", "5.0"⟩], [], [], []⟩

/-- An edit event that also carries a top-level text payload, in the
same channel with the same timestamp as the archived original. -/
def exEvEdit : Event :=
  ⟨some "message_changed", some "new", "C1", some "U1", some "5.0",
   some ⟨"new", some "U1", "5.0"⟩, some ⟨"old", some "U1", "5.0"⟩⟩

/-- The edit event without a top-level text payload (the backend shape). -/
def exEvEditNoText : Event :=
  ⟨some "message_changed", none, "C1", some "U1", some "5.0",
   some ⟨"new", some "U1", "5.0"⟩, some ⟨"old", some "U1", "5.0"⟩⟩

/-- A bot-message event whose text is a mention of the bot followed by a
valid version-4 UUID. -/
def exEvBot : Event :=
  ⟨some "bot_message", some "<@UJ8U80MKL> 12345678-1234-4123-8123-123456789abc",
   "C7", some "U1", some "1.0", none, none⟩

/-- The same event rewritten the way the mention branch would rewrite
it. -/
def exEvBotRewritten : Event :=
  { exEvBot with text := some "id:12345678-1234-4123-8123-123456789abc" }

/-- A cache whose channel map is empty. -/
def exEnvEmpty : Env := ⟨[], [], [], [], []⟩

/-- A mention event carrying a valid UUID, with no special subtype. -/
def exEvMention : Event :=
  ⟨none, some "<@UJ8U80MKL> 12345678-1234-4123-8123-123456789abc",
   "C7", some "U1", some "1.0", none, none⟩

/-- A backend with one group whose backend-reported is_private is
false. -/
def exBackendG : Backend := ⟨[], [], [⟨"secret", "G1", true, false, ["U9"]⟩]⟩

/-! ## Helper lemmas -/

theorem refreshOnly_refl (st : St) : RefreshOnly st st :=
  ⟨rfl, rfl, rfl, [], by simp, by simp⟩

theorem refreshOnly_trans {s1 s2 s3 : St} (h1 : RefreshOnly s1 s2) (h2 : RefreshOnly s2 s3) :
    RefreshOnly s1 s3 := by
  obtain ⟨a1, b1, c1, l1, d1, e1⟩ := h1
  obtain ⟨a2, b2, c2, l2, d2, e2⟩ := h2
  refine ⟨a2.trans a1, b2.trans b1, c2.trans c1, l1 ++ l2, ?_, ?_⟩
  · rw [d2, d1, List.append_assoc]
  · intro op hop
    rcases List.mem_append.mp hop with h | h
    · exact e1 op h
    · exact e2 op h

theorem update_users_refresh (b : Backend) (st : St) : RefreshOnly st (update_users b st) := by
  refine ⟨rfl, rfl, rfl, _, rfl, ?_⟩
  intro op hop
  simp only [List.mem_singleton] at hop
  subst hop
  rfl

theorem update_channels_refresh (b : Backend) (st : St) :
    RefreshOnly st (update_channels b st) := by
  refine ⟨rfl, rfl, rfl, _, rfl, ?_⟩
  intro op hop
  simp only [List.mem_singleton] at hop
  subst hop
  rfl

theorem get_user_id_refresh (b : Backend) (st : St) (n : String) :
    RefreshOnly st (get_user_id b st n).1 := by
  show RefreshOnly st (if dmem st.env.user_id n then st else update_users b st)
  split
  · exact refreshOnly_refl st
  · exact update_users_refresh b st

theorem get_user_name_refresh (b : Backend) (st : St) (n : String) :
    RefreshOnly st (get_user_name b st n).1 := by
  show RefreshOnly st (if dmem st.env.id_user n then st else update_users b st)
  split
  · exact refreshOnly_refl st
  · exact update_users_refresh b st

theorem get_channel_id_refresh (b : Backend) (st : St) (n : String) :
    RefreshOnly st (get_channel_id b st n).1 := by
  show RefreshOnly st (if dmem st.env.channel_id n then st else update_channels b st)
  split
  · exact refreshOnly_refl st
  · exact update_channels_refresh b st

theorem get_channel_name_refresh (b : Backend) (st : St) (n : String) :
    RefreshOnly st (get_channel_name b st n).1 := by
  show RefreshOnly st (if dmem st.env.id_channel n then st else update_channels b st)
  split
  · exact refreshOnly_refl st
  · exact update_channels_refresh b st

theorem isSelect_false_of_isDirWrite {op : StoreOp} (h : StoreOp.isDirWrite op = true) :
    StoreOp.isSelect op = false := by
  cases op <;> simp_all [StoreOp.isDirWrite, StoreOp.isSelect]

theorem refreshOnly_select {st st2 : St} (h : RefreshOnly st st2) :
    st2.ops.filter StoreOp.isSelect = st.ops.filter StoreOp.isSelect := by
  obtain ⟨-, -, -, l, hl, hall⟩ := h
  rw [hl, List.filter_append]
  have hnil : l.filter StoreOp.isSelect = [] := by
    rw [List.filter_eq_nil_iff]
    intro a ha
    simp [isSelect_false_of_isDirWrite (hall a ha)]
  rw [hnil, List.append_nil]

/-! ## dget lemmas -/

theorem dget_cons {α : Type} (p : String × α) (ps : List (String × α)) (k : String) :
    dget (p :: ps) k =
      match dget ps k with
      | some v => some v
      | none => if p.1 == k then some p.2 else none := rfl

theorem dget_append {α : Type} (l1 l2 : List (String × α)) (k : String) :
    dget (l1 ++ l2) k =
      match dget l2 k with
      | some v => some v
      | none => dget l1 k := by
  induction l1 with
  | nil =>
    simp only [List.nil_append]
    cases h : dget l2 k <;> simp [h, dget]
  | cons p l1 ih =>
    rw [List.cons_append, dget_cons, ih, dget_cons]
    cases dget l2 k <;> rfl

theorem dget_dset_self {α : Type} (l : List (String × α)) (k : String) (v : α) :
    dget (dset l k v) k = some v := by
  unfold dset
  rw [dget_append]
  simp [dget]

theorem dget_filter_ne {α : Type} (l : List (String × α)) (k k2 : String) (h : k2 ≠ k) :
    dget (l.filter (fun p => !(p.1 == k))) k2 = dget l k2 := by
  induction l with
  | nil => rfl
  | cons p l ih =>
    by_cases hp : p.1 == k
    · have hk2 : (p.1 == k2) = false := by
        rw [beq_eq_false_iff_ne]
        rw [beq_iff_eq] at hp
        rw [hp]
        exact Ne.symm h
      have hcond : (!(p.1 == k)) = false := by simp [hp]
      rw [List.filter_cons, hcond]
      simp only [Bool.false_eq_true, if_false]
      rw [ih, dget_cons, hk2]
      cases dget l k2 <;> simp
    · have hcond : (!(p.1 == k)) = true := by simp [hp]
      rw [List.filter_cons, hcond]
      simp only [if_true]
      rw [dget_cons, dget_cons, ih]

theorem dget_dset_ne {α : Type} (l : List (String × α)) (k k2 : String) (v : α) (h : k2 ≠ k) :
    dget (dset l k v) k2 = dget l k2 := by
  unfold dset
  rw [dget_append]
  have hk : (k == k2) = false := by
    rw [beq_eq_false_iff_ne]
    exact Ne.symm h
  simp only [dget, hk, Bool.false_eq_true, if_false]
  exact dget_filter_ne l k k2 h

theorem dmem_eq_isSome {α : Type} (l : List (String × α)) (k : String) :
    dmem l k = (dget l k).isSome := by
  induction l with
  | nil => rfl
  | cons p l ih =>
    simp only [dmem, List.any_cons, dget_cons] at *
    rw [ih]
    cases dget l k
    · by_cases hpk : p.1 == k <;> simp [hpk]
    · simp

theorem processToken_refresh (b : Backend) (st : St) (ps : Plan) (p : String) :
    RefreshOnly st (processToken b st ps p).1 := by
  unfold processToken
  dsimp only
  split
  · exact refreshOnly_refl st
  · split
    · exact refreshOnly_refl st
    · split
      · split
        · split
          · exact get_user_id_refresh b st _
          · exact get_user_id_refresh b st _
        · split
          · split
            · exact get_channel_id_refresh b st _
            · exact get_channel_id_refresh b st _
          · split
            · split
              · exact refreshOnly_refl st
              · exact refreshOnly_refl st
            · split
              · split
                · exact refreshOnly_refl st
                · exact refreshOnly_refl st
              · exact refreshOnly_refl st
      · exact refreshOnly_refl st

theorem processTokens_cons (b : Backend) (st : St) (ps : Plan) (p : String)
    (rest : List String) :
    processTokens b st ps (p :: rest) =
      match processToken b st ps p with
      | (st2, Except.ok ps2) => processTokens b st2 ps2 rest
      | (st2, Except.error e) => (st2, Except.error e) := rfl

theorem processTokens_refresh (b : Backend) (l : List String) :
    ∀ (st : St) (ps : Plan), RefreshOnly st (processTokens b st ps l).1 := by
  induction l with
  | nil => intro st ps; exact refreshOnly_refl st
  | cons p rest ih =>
    intro st ps
    rcases hpt : processToken b st ps p with ⟨st2, r⟩
    have href : RefreshOnly st st2 := by
      have h := processToken_refresh b st ps p
      rw [hpt] at h
      exact h
    rw [processTokens_cons, hpt]
    cases r with
    | ok ps2 => exact refreshOnly_trans href (ih st2 ps2)
    | error e => exact href

theorem processTokens_append (b : Backend) (l1 l2 : List String) :
    ∀ (st : St) (ps : Plan),
      processTokens b st ps (l1 ++ l2) =
        match processTokens b st ps l1 with
        | (st2, Except.ok ps2) => processTokens b st2 ps2 l2
        | (st2, Except.error e) => (st2, Except.error e) := by
  induction l1 with
  | nil => intro st ps; rfl
  | cons p rest ih =>
    intro st ps
    rw [List.cons_append, processTokens_cons, processTokens_cons]
    rcases hpt : processToken b st ps p with ⟨st2, r⟩
    cases r with
    | ok ps2 =>
      dsimp only
      exact ih st2 ps2
    | error e =>
      dsimp only

theorem renderRows_spec (b : Backend) (tfq : Int → String) (req : Option String)
    (l : List Row) : ∀ st : St,
    RefreshOnly st (renderRows b tfq req st l).1 ∧
    (∀ lines, (renderRows b tfq req st l).2 = Except.ok lines → lines.length ≤ l.length) := by
  induction l with
  | nil =>
    intro st
    constructor
    · exact refreshOnly_refl st
    · intro lines h
      simp only [renderRows] at h
      cases h
      simp
  | cons r rest ih =>
    intro st
    cases req with
    | none =>
      constructor
      · exact refreshOnly_refl st
      · intro lines h
        simp only [renderRows] at h
        exact Except.noConfusion h
    | some u =>
      simp only [renderRows]
      rcases hcq : can_query_channel st.env r.channel u with e | ob
      · constructor
        · exact refreshOnly_refl st
        · intro lines h
          simp only at h
          exact Except.noConfusion h
      · by_cases ht : truthy ob
        · simp only [ht, if_true]
          rcases hct : convert_timestamp tfq r.timestamp with e | tstr
          · constructor
            · exact get_user_name_refresh b st r.user
            · intro lines h
              simp only at h
              exact Except.noConfusion h
          · rcases hcn : (get_channel_name b (get_user_name b st r.user).1 r.channel).2
              with _ | cname
            · dsimp only
              constructor
              · exact refreshOnly_trans (get_user_name_refresh b st r.user)
                  (get_channel_name_refresh b (get_user_name b st r.user).1 r.channel)
              · intro lines h
                exact Except.noConfusion h
            · dsimp only
              rcases hrr : renderRows b tfq (some u)
                  (get_channel_name b (get_user_name b st r.user).1 r.channel).1 rest
                with ⟨st3, rr⟩
              have hih := ih (get_channel_name b (get_user_name b st r.user).1 r.channel).1
              rw [hrr] at hih
              have href3 : RefreshOnly st st3 :=
                refreshOnly_trans (get_user_name_refresh b st r.user)
                  (refreshOnly_trans
                    (get_channel_name_refresh b (get_user_name b st r.user).1 r.channel)
                    hih.1)
              cases rr with
              | error e =>
                constructor
                · exact href3
                · intro lines h
                  simp only at h
                  exact Except.noConfusion h
              | ok lines0 =>
                constructor
                · exact href3
                · intro lines h
                  simp only at h
                  cases h
                  simp only [List.length_cons]
                  exact Nat.succ_le_succ (hih.2 lines0 rfl)
        · simp only [ht, if_false]
          constructor
          · exact (ih st).1
          · intro lines h
            exact Nat.le_trans ((ih st).2 lines h) (Nat.le_succ rest.length)

theorem finishQuery_spec (b : Backend) (tfq : Int → String) (st : St) (req : Option String)
    (ec : String) (res : List Row) :
    (∀ m, (finishQuery b tfq st req ec res).2 ≠ some (PyExc.valueError m)) ∧
    ((finishQuery b tfq st req ec res).2 = none →
      ∃ m, (finishQuery b tfq st req ec res).1.sent = st.sent ++ [(m, ec)]) ∧
    (finishQuery b tfq st req ec res).1.messages = st.messages := by
  unfold finishQuery
  split
  · refine ⟨?_, ?_, rfl⟩
    · intro m h
      exact Option.noConfusion h
    · intro _
      exact ⟨"No results found", rfl⟩
  · rcases hr : renderRows b tfq req st res with ⟨st2, rr⟩
    have hspec := renderRows_spec b tfq req res st
    rw [hr] at hspec
    have hsent : st2.sent = st.sent := hspec.1.1
    have hmsgs : st2.messages = st.messages := hspec.1.2.1
    cases rr with
    | error e =>
      cases e with
      | valueError m =>
        dsimp only
        refine ⟨fun m2 h => Option.noConfusion h, fun _ => ⟨m, ?_⟩, hmsgs⟩
        show st2.sent ++ [(m, ec)] = st.sent ++ [(m, ec)]
        rw [hsent]
      | indexError =>
        dsimp only
        refine ⟨fun m2 h => by simp at h, fun h => Option.noConfusion h, hmsgs⟩
      | keyError =>
        dsimp only
        refine ⟨fun m2 h => by simp at h, fun h => Option.noConfusion h, hmsgs⟩
      | typeError =>
        dsimp only
        refine ⟨fun m2 h => by simp at h, fun h => Option.noConfusion h, hmsgs⟩
      | attributeError =>
        dsimp only
        refine ⟨fun m2 h => by simp at h, fun h => Option.noConfusion h, hmsgs⟩
    | ok lines =>
      dsimp only
      split
      · refine ⟨fun m h => Option.noConfusion h, fun _ => ⟨"No results found", ?_⟩, hmsgs⟩
        show st2.sent ++ [("No results found", ec)] = st.sent ++ [("No results found", ec)]
        rw [hsent]
      · refine ⟨fun m h => Option.noConfusion h, fun _ => ⟨joinSep "\n" lines, ?_⟩, hmsgs⟩
        show st2.sent ++ [(joinSep "\n" lines, ec)] = st.sent ++ [(joinSep "\n" lines, ec)]
        rw [hsent]

theorem handle_query_spec (b : Backend) (tfq : Int → String) (st : St) (ev : Event) :
    (∀ m, (handle_query b tfq st ev).2 ≠ some (PyExc.valueError m)) ∧
    ((handle_query b tfq st ev).2 = none →
      ∃ m, (handle_query b tfq st ev).1.sent = st.sent ++ [(m, ev.channel)]) ∧
    (handle_query b tfq st ev).1.messages = st.messages := by
  unfold handle_query
  cases htext : ev.text with
  | none =>
    exact ⟨fun m h => by simp at h, fun h => Option.noConfusion h, rfl⟩
  | some etext =>
    dsimp only
    cases hps : pySplit (strLower etext) with
    | nil =>
      exact ⟨fun m h => by simp at h, fun h => Option.noConfusion h, rfl⟩
    | cons p0 tl =>
      dsimp only
      split
      · have h := finishQuery_spec b tfq { st with ops := st.ops ++ [StoreOp.selectMessages] }
          ev.user ev.channel
          (idModeRows st.messages ((charSplit ':' p0).getD 1 ""))
        exact ⟨h.1, h.2.1, h.2.2⟩
      · rcases hpt : processTokens b st initPlan (p0 :: tl) with ⟨st2, r⟩
        have href := processTokens_refresh b (p0 :: tl) st initPlan
        rw [hpt] at href
        have hsent2 : st2.sent = st.sent := href.1
        have hmsgs2 : st2.messages = st.messages := href.2.1
        cases r with
        | error e =>
          cases e with
          | valueError m =>
            dsimp only
            refine ⟨fun m2 h => Option.noConfusion h, fun _ => ⟨m, ?_⟩, hmsgs2⟩
            show st2.sent ++ [(m, ev.channel)] = st.sent ++ [(m, ev.channel)]
            rw [hsent2]
          | indexError =>
            exact ⟨fun m2 h => by simp at h, fun h => Option.noConfusion h, hmsgs2⟩
          | keyError =>
            exact ⟨fun m2 h => by simp at h, fun h => Option.noConfusion h, hmsgs2⟩
          | typeError =>
            exact ⟨fun m2 h => by simp at h, fun h => Option.noConfusion h, hmsgs2⟩
          | attributeError =>
            exact ⟨fun m2 h => by simp at h, fun h => Option.noConfusion h, hmsgs2⟩
        | ok plan =>
          dsimp only
          have h := finishQuery_spec b tfq { st2 with ops := st2.ops ++ [StoreOp.selectMessages] }
            ev.user ev.channel
            (fetchmany plan.limit (applySort plan.sort
              (ftFilter st2.messages ("%" ++ joinSep " " plan.text ++ "%") plan.user plan.channel)))
          refine ⟨h.1, fun hn => ?_, h.2.2.trans hmsgs2⟩
          obtain ⟨m, hm⟩ := h.2.1 hn
          refine ⟨m, ?_⟩
          rw [hm]
          show st2.sent ++ [(m, ev.channel)] = st.sent ++ [(m, ev.channel)]
          rw [hsent2]

theorem like_noWild (ps : List Char) (h : noWild ps = true) :
    ∀ cs, likeM ps cs = decide (ps.map lchar = cs.map lchar) := by
  induction ps with
  | nil =>
    intro cs
    cases cs <;> simp [likeM]
  | cons p pr ih =>
    intro cs
    simp only [noWild, List.all_cons, Bool.and_eq_true, Bool.not_eq_true'] at h
    obtain ⟨⟨hp1, hp2⟩, hall⟩ := h
    have hpr : noWild pr = true := by
      simp only [noWild]
      exact hall
    cases cs with
    | nil =>
      simp only [likeM, hp1, Bool.false_eq_true, if_false, List.map_cons, List.map_nil]
      simp
    | cons c ct =>
      simp only [likeM, hp1, Bool.false_eq_true, if_false, hp2, Bool.false_or,
        List.map_cons, ih hpr ct]
      by_cases hc : lchar p = lchar c
      · simp [hc]
      · simp [hc]

theorem filter_lower_le_one (uidl : List Char) :
    ∀ msgs : List Row, (msgs.map (fun r => strLower r.id)).Nodup →
      (msgs.filter (fun r => decide (uidl = r.id.data.map lchar))).length ≤ 1 := by
  intro msgs
  induction msgs with
  | nil => intro _; simp
  | cons r rest ih =>
    intro hn
    simp only [List.map_cons, List.nodup_cons] at hn
    obtain ⟨hnotin, hrest⟩ := hn
    by_cases hr : uidl = r.id.data.map lchar
    · have hempty : rest.filter (fun q => decide (uidl = q.id.data.map lchar)) = [] := by
        rw [List.filter_eq_nil_iff]
        intro q hq
        simp only [decide_eq_true_eq]
        intro hcontra
        apply hnotin
        have h1 : q.id.data.map lchar = r.id.data.map lchar := by rw [← hcontra, ← hr]
        have h2 : strLower r.id = strLower q.id := (congrArg String.mk h1).symm
        rw [h2]
        exact List.mem_map_of_mem (fun x => strLower x.id) hq
      rw [List.filter_cons, if_pos (by simp [hr]), hempty]
      simp
    · rw [List.filter_cons, if_neg (by simp [hr])]
      exact ih hrest

theorem dget_chanFold_notmem (k : String) :
    ∀ (l : List Convo), (∀ m ∈ l, m.id ≠ k) → ∀ init,
      dget (l.foldl (fun acc m => dset acc m.id (convoInfo m)) init) k = dget init k := by
  intro l
  induction l with
  | nil => intro _ init; rfl
  | cons m ms ih =>
    intro h init
    rw [List.foldl_cons, ih (fun x hx => h x (List.mem_cons_of_mem m hx))]
    exact dget_dset_ne init m.id k (convoInfo m) (fun hc => h m (List.mem_cons_self m ms) hc.symm)

theorem dget_chanFold_mem (P : ChannelInfo → Prop) (k : String) :
    ∀ (l : List Convo), (∃ m ∈ l, m.id = k) → (∀ m ∈ l, m.id = k → P (convoInfo m)) →
      ∀ init, ∃ inf, dget (l.foldl (fun acc m => dset acc m.id (convoInfo m)) init) k = some inf ∧
        P inf := by
  intro l
  induction l with
  | nil =>
    intro hex
    exact absurd hex (by simp)
  | cons m ms ih =>
    intro hex hall init
    by_cases hms : ∃ m2 ∈ ms, m2.id = k
    · exact ih hms (fun x hx hxk => hall x (List.mem_cons_of_mem m hx) hxk) _
    · have hmk : m.id = k := by
        rcases hex with ⟨x, hx, hxk⟩
        rcases List.mem_cons.mp hx with hxm | hxms
        · rw [← hxm]; exact hxk
        · exact absurd ⟨x, hxms, hxk⟩ hms
      rw [List.foldl_cons,
        dget_chanFold_notmem k ms (fun x hx hxk => hms ⟨x, hx, hxk⟩) _]
      refine ⟨convoInfo m, ?_, hall m (List.mem_cons_self m ms) hmk⟩
      rw [← hmk]
      exact dget_dset_self init m.id (convoInfo m)

theorem filter_not_filter {α : Type} (p : α → Bool) (l : List α) :
    (l.filter (fun a => !(p a))).filter p = [] := by
  rw [List.filter_eq_nil_iff]
  intro a ha
  have h := List.of_mem_filter ha
  simp only [Bool.not_eq_true'] at h
  simp [h]

/-- C1 (code_bug): the archival branch supplies five values to a bare
INSERT against the messages table, but the CREATE TABLE statement at
source line 33 declares only four columns, so on a freshly created
database the insert always fails and no record is stored (first
conjunct).  The second conjunct shows the claim itself is the intent: on
the five-column table the statements assume, replace-on-conflict over
(channel, timestamp) retains exactly one record for the pair, whose body
is the later event's text. -/
theorem thmC1 :
    (∀ fresh text user channel ts : String,
      execBareInsert messagesCreateColumns (archivalInsertValues fresh text user channel ts) =
        Except.error "table messages has a different number of columns than values supplied") ∧
    (∀ (rows : List Row) (r1 r2 : Row), r1.channel = r2.channel → r1.timestamp = r2.timestamp →
      r1 ≠ r2 →
      (replaceInsert (replaceInsert rows r1) r2).filter
          (fun q => q.channel == r2.channel && q.timestamp == r2.timestamp) = [r2] ∧
      r1 ∉ replaceInsert (replaceInsert rows r1) r2) := by
  constructor
  · intro fresh text user channel ts
    rfl
  · intro rows r1 r2 hc ht hne
    constructor
    · show (List.filter _ (replaceInsert rows r1) ++ [r2]).filter _ = [r2]
      rw [List.filter_append, filter_not_filter]
      simp
    · intro hmem
      rcases List.mem_append.mp hmem with hin | hin
      · have hp := List.of_mem_filter hin
        simp only [Bool.not_eq_true', Bool.and_eq_false_iff] at hp
        rcases hp with hp | hp
        · rw [beq_eq_false_iff_ne] at hp
          exact hp hc
        · rw [beq_eq_false_iff_ne] at hp
          exact hp ht
      · exact hne (List.mem_singleton.mp hin)

/-- Witness for C1 at a concrete pair of conflicting rows. -/
theorem thmC1_witness :
    (⟨"u1", "old", "U1", "C1", "5.0"⟩ : Row).channel =
      (⟨"u2", "new", "U1", "C1", "5.0"⟩ : Row).channel ∧
    (replaceInsert (replaceInsert [] ⟨"u1", "old", "U1", "C1", "5.0"⟩)
        ⟨"u2", "new", "U1", "C1", "5.0"⟩).filter
      (fun q => q.channel == "C1" && q.timestamp == "5.0") =
        [⟨"u2", "new", "U1", "C1", "5.0"⟩] :=
  ⟨rfl, (thmC1.2 [] ⟨"u1", "old", "U1", "C1", "5.0"⟩ ⟨"u2", "new", "U1", "C1", "5.0"⟩ rfl rfl
    (by decide)).1⟩

/-- Counterexample to C2: when the channel id is absent from the cached
id-to-name map, `can_query_channel` returns Python None (falsy, so the
caller drops the record), not true as the claim states. -/
theorem cexC2 :
    can_query_channel exEnvEmpty "C1" "U1" = Except.ok none ∧
    truthy none = false ∧
    (Except.ok none : Except PyExc (Option Bool)) ≠ Except.ok (some true) := by
  refine ⟨rfl, rfl, by simp⟩

/-- C2 (amended): `can_query_channel` returns None — treated as false by
its caller — when the channel id is absent from the cached id-to-name
map; otherwise it returns exactly `not is_private or user in members`
read from the visibility table. -/
theorem thmC2 (env : Env) (cid uid : String) :
    (dmem env.id_channel cid = false →
      can_query_channel env cid uid = Except.ok none ∧ truthy none = false) ∧
    (∀ inf, dmem env.id_channel cid = true → dget env.channel_info cid = some inf →
      can_query_channel env cid uid =
        Except.ok (some ((!inf.is_private) || inf.members.contains uid))) := by
  constructor
  · intro h
    refine ⟨?_, rfl⟩
    unfold can_query_channel
    rw [h]
    simp
  · intro inf h1 h2
    unfold can_query_channel
    rw [h1, h2]
    simp

/-- Witness for C2 on the warm example cache. -/
theorem thmC2_witness :
    dmem exEnv.id_channel "C1" = true ∧
    can_query_channel exEnv "C1" "U9" =
      Except.ok (some ((!(false : Bool)) || (["U1", "U2"] : List String).contains "U9")) :=
  ⟨by decide, (thmC2 exEnv "C1" "U9").2 ⟨false, ["U1", "U2"]⟩ (by decide) (by decide)⟩

/-- Counterexample to C3: the query `id:%` matches every stored id under
SQL LIKE semantics, and the executor renders two records in one reply —
an id lookup can return more than one record. -/
theorem cexC3 :
    (handle_query exBackend exTfq exSt exEvIdPct).1.sent =
      [(joinSep "\n" ["m1 (@bob, 1, #general, id:aaaa)", "m2 (@bob, 2, #general, id:bbbb)"],
        "D9")] ∧
    idModeRows exSt.messages "%" = exSt.messages ∧ exSt.messages.length = 2 :=
  ⟨by decide, by decide, rfl⟩

/-- C3 (amended): an `id:<x>` query fetches the stored rows whose id
matches `<x>` as a case-insensitive SQL LIKE pattern, capped at the
default limit; when `<x>` contains no LIKE wildcard and the stored ids
are distinct case-insensitively, at most one record is fetched, and any
fetched record's lowercased id equals the lowercased `<x>`. -/
theorem thmC3 (msgs : List Row) (uid : String)
    (hw : noWild uid.data = true)
    (hn : (msgs.map (fun r => strLower r.id)).Nodup) :
    (idModeRows msgs uid).length ≤ 1 ∧
    ∀ r ∈ idModeRows msgs uid, strLower r.id = strLower uid := by
  have key : (fun r : Row => sqliteLike uid r.id) =
      (fun r : Row => decide (uid.data.map lchar = r.id.data.map lchar)) := by
    funext r
    rw [sqliteLike, like_noWild uid.data hw r.id.data]
  constructor
  · unfold idModeRows fetchmany
    rw [if_neg (by norm_num), key]
    calc (List.take (Int.toNat 10) (msgs.filter
          (fun r => decide (uid.data.map lchar = r.id.data.map lchar)))).length
        ≤ (msgs.filter (fun r => decide (uid.data.map lchar = r.id.data.map lchar))).length := by
          rw [List.length_take]
          exact min_le_right _ _
      _ ≤ 1 := filter_lower_le_one (uid.data.map lchar) msgs hn
  · intro r hr
    unfold idModeRows fetchmany at hr
    rw [if_neg (by norm_num), key] at hr
    have hr2 := List.mem_of_mem_take hr
    have hp := List.of_mem_filter hr2
    simp only [decide_eq_true_eq] at hp
    exact (congrArg String.mk hp).symm

/-- Witness for C3 at a wildcard-free id over the example store. -/
theorem thmC3_witness :
    noWild ("aaaa" : String).data = true ∧
    (idModeRows exSt.messages "aaaa").length ≤ 1 :=
  ⟨by decide, (thmC3 exSt.messages "aaaa" (by decide) (by decide)).1⟩

/-- Counterexample to C4: a query whose text is empty raises an index
error while parsing (`params[0]`); the failure escapes `handle_query`
uncaught and nothing is delivered back to the requester. -/
theorem cexC4 :
    handle_query exBackend exTfq exSt exEvEmpty = (exSt, some PyExc.indexError) ∧
    (handle_query exBackend exTfq exSt exEvEmpty).1.sent = [] :=
  ⟨by decide, by decide⟩

/-- C4 (amended): every ValueError raised while handling a query — the
form every explicitly raised parse or resolution failure takes — is
caught inside `handle_query` and its own message is the text delivered
to the requesting channel: a ValueError aborting the parse loop makes
the handler send exactly that failure's message and nothing else, and a
ValueError raised while rendering results is likewise caught with its
message sent; whenever `handle_query` returns normally it has delivered
exactly one message to the requesting channel; and failures of other
kinds escape the handler with nothing delivered — a rendering exception
that is not a ValueError (the type error from an unresolvable channel
name, the key error from a missing requester field) propagates out of
the query pipeline unchanged, as does the index error of an empty query
text — to be absorbed by the outer event loop. -/
theorem thmC4 (b : Backend) (tfq : Int → String) (st : St) (ev : Event) :
    (∀ m, (handle_query b tfq st ev).2 ≠ some (PyExc.valueError m)) ∧
    ((handle_query b tfq st ev).2 = none →
      ∃ m, (handle_query b tfq st ev).1.sent = st.sent ++ [(m, ev.channel)]) ∧
    (∀ etext p0 tl st2 m, ev.text = some etext →
      pySplit (strLower etext) = p0 :: tl →
      (takeStr 3 p0 == "id:") = false →
      processTokens b st initPlan (p0 :: tl) = (st2, Except.error (PyExc.valueError m)) →
      handle_query b tfq st ev = (send_message st2 m ev.channel, none) ∧
      (handle_query b tfq st ev).1.sent = st.sent ++ [(m, ev.channel)]) ∧
    (∀ (st0 : St) (req : Option String) (ec : String) (res : List Row) (st2 : St)
      (m : String), res.isEmpty = false →
      renderRows b tfq req st0 res = (st2, Except.error (PyExc.valueError m)) →
      finishQuery b tfq st0 req ec res = (send_message st2 m ec, none)) ∧
    (∀ (st0 : St) (req : Option String) (ec : String) (res : List Row) (st2 : St)
      (e : PyExc), res.isEmpty = false →
      renderRows b tfq req st0 res = (st2, Except.error e) →
      (∀ m, e ≠ PyExc.valueError m) →
      finishQuery b tfq st0 req ec res = (st2, some e) ∧ st2.sent = st0.sent) ∧
    (∀ etext, ev.text = some etext → pySplit (strLower etext) = [] →
      handle_query b tfq st ev = (st, some PyExc.indexError)) := by
  refine ⟨(handle_query_spec b tfq st ev).1, (handle_query_spec b tfq st ev).2.1,
    ?_, ?_, ?_, ?_⟩
  · intro etext p0 tl st2 m htext hsp hid hpt
    have hrun : handle_query b tfq st ev = (send_message st2 m ev.channel, none) := by
      unfold handle_query
      rw [htext]
      dsimp only
      rw [hsp]
      dsimp only
      rw [hid]
      simp only [Bool.false_eq_true, if_false]
      rw [hpt]
    have href := processTokens_refresh b (p0 :: tl) st initPlan
    rw [hpt] at href
    refine ⟨hrun, ?_⟩
    rw [hrun]
    show st2.sent ++ [(m, ev.channel)] = st.sent ++ [(m, ev.channel)]
    rw [href.1]
  · intro st0 req ec res st2 m hres hrr
    unfold finishQuery
    rw [hres]
    simp only [Bool.false_eq_true, if_false]
    rw [hrr]
  · intro st0 req ec res st2 e hres hrr hne
    have hspec := renderRows_spec b tfq req res st0
    rw [hrr] at hspec
    have hsent : st2.sent = st0.sent := hspec.1.1
    refine ⟨?_, hsent⟩
    unfold finishQuery
    rw [hres]
    simp only [Bool.false_eq_true, if_false]
    rw [hrr]
    cases e with
    | valueError m => exact absurd rfl (hne m)
    | indexError => rfl
    | keyError => rfl
    | typeError => rfl
    | attributeError => rfl
  · intro etext htext hsp
    unfold handle_query
    rw [htext]
    dsimp only
    rw [hsp]

/-- Witness for C4: a normally-returning query sends one message; the
invalid sort token makes the handler send that very ValueError message;
a rendering ValueError (non-numeric stored timestamp) is caught with its
message sent; the missing-requester key error escapes; and the
empty-text index error escapes. -/
theorem thmC4_witness :
    (∃ m, (handle_query exBackend exTfq exStVis exEvLimit).1.sent =
        exStVis.sent ++ [(m, exEvLimit.channel)]) ∧
    handle_query exBackend exTfq exSt exEvSortBad =
      (send_message exSt "Invalid sort order up" exEvSortBad.channel, none) ∧
    finishQuery exBackend exTfq exStBadTs (some "U1") "D9" exStBadTs.messages =
      (send_message exStBadTs "invalid literal for int with base 10" "D9", none) ∧
    finishQuery exBackend exTfq exSt none "D9" exSt.messages =
      (exSt, some PyExc.keyError) ∧
    handle_query exBackend exTfq exSt exEvEmpty = (exSt, some PyExc.indexError) :=
  ⟨(thmC4 exBackend exTfq exStVis exEvLimit).2.1 (by decide),
   ((thmC4 exBackend exTfq exSt exEvSortBad).2.2.1 "hi sort:up" "hi" ["sort:up"] exSt
     "Invalid sort order up" rfl (by decide) (by decide) (by decide)).1,
   (thmC4 exBackend exTfq exSt exEvEmpty).2.2.2.1 exStBadTs (some "U1") "D9"
     exStBadTs.messages exStBadTs "invalid literal for int with base 10" (by decide)
     (by decide),
   ((thmC4 exBackend exTfq exSt exEvEmpty).2.2.2.2.1 exSt none "D9" exSt.messages exSt
     PyExc.keyError (by decide) (by decide) (fun m hc => PyExc.noConfusion hc)).1,
   (thmC4 exBackend exTfq exSt exEvEmpty).2.2.2.2.2 "" rfl (by decide)⟩

/-- Counterexample to C6: the parseable query `x limit:0` sets the limit
to zero, and `cursor.fetchmany(0)` returns every remaining row, so all
three matching records are fetched — the parsed limit does not bound the
store-level fetch for every free-text query. -/
theorem cexC6 :
    processTokens exBackend exStVis initPlan (pySplit (strLower "x limit:0")) =
      (exStVis, Except.ok ⟨["x"], none, none, none, 0⟩) ∧
    (fetchmany 0 (ftFilter exStVis.messages "%x%" none none)).length = 3 ∧
    ¬((fetchmany 0 (ftFilter exStVis.messages "%x%" none none)).length ≤ (0 : Int).toNat) ∧
    (handle_query exBackend exTfq exStVis exEvLimit0).1.sent =
      [("x2 (@bob, 2, #pub, id:i2)" ++ "\n" ++ "x3 (@bob, 3, #pub, id:i3)", "D9")] :=
  ⟨by decide, by decide, by decide, by decide⟩

/-- C6 (amended): for every free-text query whose parsed limit is
positive, the limit bounds the number of records fetched from the store
before the visibility post-filter (first conjunct); a limit of zero or
less is passed straight to `fetchmany`, which then returns every
matching row (second conjunct).  On a concrete store with three matching
records and `limit:2`, the private-channel record inside the fetched
window is dropped by the gate without refilling, so only one line is
rendered even though three records match the store-level predicate. -/
theorem thmC6 :
    (∀ (lim : Int) (rows : List Row), 0 < lim → (fetchmany lim rows).length ≤ lim.toNat) ∧
    (∀ (lim : Int) (rows : List Row), lim ≤ 0 → fetchmany lim rows = rows) ∧
    processTokens exBackend exStVis initPlan (pySplit (strLower "x limit:2")) =
      (exStVis, Except.ok ⟨["x"], none, none, none, 2⟩) ∧
    (ftFilter exStVis.messages "%x%" none none).length = 3 ∧
    (handle_query exBackend exTfq exStVis exEvLimit).1.sent =
      [("x2 (@bob, 2, #pub, id:i2)", "D9")] := by
  refine ⟨?_, ?_, by decide, by decide, by decide⟩
  · intro lim rows hpos
    unfold fetchmany
    rw [if_neg (by omega), List.length_take]
    exact min_le_left _ _
  · intro lim rows hle
    unfold fetchmany
    rw [if_pos hle]

/-- Witness for C6 at a concrete positive and a concrete non-positive
limit. -/
theorem thmC6_witness :
    ((0 : Int) < 2 ∧ (fetchmany 2 exStVis.messages).length ≤ (2 : Int).toNat) ∧
    ((0 : Int) ≤ 0 ∧ fetchmany 0 exStVis.messages = exStVis.messages) :=
  ⟨⟨by decide, thmC6.1 2 exStVis.messages (by decide)⟩,
   ⟨by decide, thmC6.2.1 0 exStVis.messages (by decide)⟩⟩

/-- Counterexample to C5: the unresolvable `from:alice` query does
access the store — the directory refresh triggered by the cache miss
performs an INSERT into the users table — even though the search itself
is never executed. -/
theorem cexC5 :
    (handle_query exBackend exTfq exSt exEvFrom).1.ops =
      [StoreOp.insertUsers [("bob", "U2", avatarDefault)]] ∧
    (handle_query exBackend exTfq exSt exEvFrom).1.sent = [("User alice not found", "D9")] :=
  ⟨by decide, by decide⟩

/-- C7 (confirmed): a token of shape `:word:` (length above two,
starting and ending with a colon) is appended verbatim to the free-text
list; a colon-containing token whose key is not from/in/sort/limit sets
no filter, contributes nothing to the free text, and leaves the parse
state and the cache state unchanged; and every token that splits into
three or more colon-separated parts and is not of the `:word:` shape —
whatever its key, including from/in/sort/limit — is likewise silently
ignored. -/
theorem thmC7 (b : Backend) (st : St) (ps : Plan) (p : String) :
    (emojiShape p = true →
      processToken b st ps p = (st, Except.ok { ps with text := ps.text ++ [p] })) ∧
    (emojiShape p = false → 2 ≤ (charSplit ':' p).length →
      ((charSplit ':' p).headD "") ∉ (["from", "in", "sort", "limit"] : List String) →
      processToken b st ps p = (st, Except.ok ps)) ∧
    (emojiShape p = false → 3 ≤ (charSplit ':' p).length →
      processToken b st ps p = (st, Except.ok ps)) := by
  refine ⟨?_, ?_, ?_⟩
  · intro h
    unfold processToken
    rw [h]
    simp
  · intro h hlen hkey
    simp only [List.mem_cons, List.not_mem_nil, or_false, not_or] at hkey
    obtain ⟨hk1, hk2, hk3, hk4⟩ := hkey
    have h1 : ((charSplit ':' p).length == 1) = false := by
      rw [beq_eq_false_iff_ne]
      omega
    replace hk1 : (charSplit ':' p).head?.getD "" ≠ "from" := by simpa using hk1
    replace hk2 : (charSplit ':' p).head?.getD "" ≠ "in" := by simpa using hk2
    replace hk3 : (charSplit ':' p).head?.getD "" ≠ "sort" := by simpa using hk3
    replace hk4 : (charSplit ':' p).head?.getD "" ≠ "limit" := by simpa using hk4
    by_cases h2 : (charSplit ':' p).length = 2
    · simp [processToken, h, h1, h2, hk1, hk2, hk3, hk4]
    · have h2b : ((charSplit ':' p).length == 2) = false := by
        rw [beq_eq_false_iff_ne]
        exact h2
      simp [processToken, h, h1, h2b]
  · intro h hlen3
    have h1 : ((charSplit ':' p).length == 1) = false := by
      rw [beq_eq_false_iff_ne]
      omega
    have h2 : ((charSplit ':' p).length == 2) = false := by
      rw [beq_eq_false_iff_ne]
      omega
    simp [processToken, h, h1, h2]

/-- Witness for C7 at an emoji token, an unknown-key token, and two
known-key multi-colon tokens. -/
theorem thmC7_witness :
    emojiShape ":ab:" = true ∧
    processToken exBackend exSt initPlan ":ab:" =
      (exSt, Except.ok { initPlan with text := initPlan.text ++ [":ab:"] }) ∧
    processToken exBackend exSt initPlan "foo:bar" = (exSt, Except.ok initPlan) ∧
    processToken exBackend exSt initPlan "from:a:b" = (exSt, Except.ok initPlan) ∧
    processToken exBackend exSt initPlan "limit:1:2" = (exSt, Except.ok initPlan) :=
  ⟨by decide, (thmC7 exBackend exSt initPlan ":ab:").1 (by decide),
   (thmC7 exBackend exSt initPlan "foo:bar").2.1 (by decide) (by decide) (by decide),
   (thmC7 exBackend exSt initPlan "from:a:b").2.2 (by decide) (by decide),
   (thmC7 exBackend exSt initPlan "limit:1:2").2.2 (by decide) (by decide)⟩

/-- Counterexample to C8: a message-changed event that also carries a
top-level text payload falls through to the archival branch after the
notice, and the replace-on-conflict insert rewrites the archived record
for the same (channel, timestamp) pair. -/
theorem cexC8 :
    (handle_message exBackend exTfq exTfn "u-new" exStEdit exEvEdit).1.messages =
      [⟨"u-new", "new", "U1", "C1", "5.0"⟩] ∧
    exStEdit.messages = [⟨"i9", "old", "U1", "C1", "5.0"⟩] ∧
    (handle_message exBackend exTfq exTfn "u-new" exStEdit exEvEdit).1.messages ≠
      exStEdit.messages :=
  ⟨by decide, rfl, by decide⟩

/-- C8 (amended): for every message-changed event in the backend shape —
carrying `message` and `previous_message` payloads, a float-parseable
original timestamp, a resolvable channel name, and no top-level text —
the dispatcher sends exactly one notice containing both the original and
the new body text to the fixed operations channel CJ9745N3U, and the
messages table is left entirely unchanged. -/
theorem thmC8 (b : Backend) (tfq : Int → String) (tfn : String → String) (fresh : String)
    (st : St) (ev : Event) (msg prev : SubMsg) (cname : String)
    (hsub : ev.subtype = some "message_changed")
    (hmsg : ev.message = some msg)
    (hprev : ev.previous_message = some prev)
    (hts : pyFloatOk prev.ts = true)
    (hcn : (get_channel_name b st ev.channel).2 = some cname)
    (htext : ev.text = none) :
    handle_message b tfq tfn fresh st ev =
      (send_message (get_channel_name b st ev.channel).1
        ("@" ++ get_user msg.user ++ " edited their message (sent on " ++ tfn prev.ts ++
         ") from #" ++ cname ++ ": \n>" ++ prev.text ++ "\n to say: \n>" ++ msg.text)
        "CJ9745N3U", none) ∧
    (handle_message b tfq tfn fresh st ev).1.messages = st.messages ∧
    (handle_message b tfq tfn fresh st ev).1.sent =
      st.sent ++ [("@" ++ get_user msg.user ++ " edited their message (sent on " ++
        tfn prev.ts ++ ") from #" ++ cname ++ ": \n>" ++ prev.text ++ "\n to say: \n>" ++
        msg.text, "CJ9745N3U")] := by
  have hnp : noticePhase b tfn st ev =
      (send_message (get_channel_name b st ev.channel).1
        ("@" ++ get_user msg.user ++ " edited their message (sent on " ++ tfn prev.ts ++
         ") from #" ++ cname ++ ": \n>" ++ prev.text ++ "\n to say: \n>" ++ msg.text)
        "CJ9745N3U", none) := by
    unfold noticePhase
    rw [hsub]
    have hne : ((some "message_changed" : Option String) == some "message_deleted") = false := by
      decide
    rw [hne]
    simp only [Bool.false_eq_true, if_false]
    have heq : ((some "message_changed" : Option String) == some "message_changed") = true := by
      decide
    rw [heq]
    simp only [if_true]
    rw [hmsg, hprev]
    dsimp only
    rw [hts]
    simp only [Bool.not_true, Bool.false_eq_true, if_false]
    rw [hcn]
  have hrun : handle_message b tfq tfn fresh st ev =
      (send_message (get_channel_name b st ev.channel).1
        ("@" ++ get_user msg.user ++ " edited their message (sent on " ++ tfn prev.ts ++
         ") from #" ++ cname ++ ": \n>" ++ prev.text ++ "\n to say: \n>" ++ msg.text)
        "CJ9745N3U", none) := by
    unfold handle_message
    rw [hnp]
    dsimp only
    rw [htext]
  have href := get_channel_name_refresh b st ev.channel
  refine ⟨hrun, ?_, ?_⟩
  · rw [hrun]
    exact href.2.1
  · rw [hrun]
    show (get_channel_name b st ev.channel).1.sent ++ _ = _
    rw [href.1]

/-- Witness for C8 at a concrete well-shaped edit event. -/
theorem thmC8_witness :
    pyFloatOk ("5.0" : String) = true ∧
    (handle_message exBackend exTfq exTfn "u9" exStEdit exEvEditNoText).1.messages =
      exStEdit.messages :=
  ⟨by decide,
   (thmC8 exBackend exTfq exTfn "u9" exStEdit exEvEditNoText ⟨"new", some "U1", "5.0"⟩
     ⟨"old", some "U1", "5.0"⟩ "general" rfl rfl rfl (by decide) (by decide) rfl).2.1⟩

/-- Counterexample to C9: a bot-message event whose text is a bot
mention followed by a valid version-4 UUID returns at the bot-message
check and is never handed to the query pipeline (nothing is sent and no
store operation is recorded), while the rewritten `id:` query would have
produced a reply. -/
theorem cexC9 :
    handle_message exBackend exTfq exTfn "u2" exSt exEvBot = (exSt, none) ∧
    (handle_message exBackend exTfq exTfn "u2" exSt exEvBot).1.sent = [] ∧
    (handle_query exBackend exTfq exSt exEvBotRewritten).1.sent ≠ [] :=
  ⟨by decide, by decide, by decide⟩

/-- C9 (amended): for every non-direct-message event whose text begins
with the bot mention token and whose subtype is none of
message-deleted, message-changed and bot-message: the messages table is
never written; when a second whitespace token exists and has a
version-4-UUID prefix, the event is rewritten to an `id:` query and
handed to the query pipeline; when the second token does not match, the
event is dropped unchanged; and when no second token exists an index
error escapes to the outer loop, still with no store write. -/
theorem thmC9 (b : Backend) (tfq : Int → String) (tfn : String → String) (fresh : String)
    (st : St) (ev : Event) (etext : String)
    (htext : ev.text = some etext)
    (hm : takeStr 12 etext = "<@UJ8U80MKL>")
    (hD : ev.channel.data.headD 'D' ≠ 'D')
    (h1 : ev.subtype ≠ some "message_deleted")
    (h2 : ev.subtype ≠ some "message_changed")
    (h3 : ev.subtype ≠ some "bot_message") :
    (handle_message b tfq tfn fresh st ev).1.messages = st.messages ∧
    (∀ t0 a1 rest2, pySplit etext = t0 :: a1 :: rest2 →
      (uuid4Match a1 = true →
        handle_message b tfq tfn fresh st ev =
          handle_query b tfq st { ev with text := some ("id:" ++ a1) }) ∧
      (uuid4Match a1 = false →
        handle_message b tfq tfn fresh st ev = (st, none))) ∧
    (∀ t0, pySplit etext = [t0] →
      handle_message b tfq tfn fresh st ev = (st, some PyExc.indexError)) := by
  have hnp : noticePhase b tfn st ev = (st, none) := by
    unfold noticePhase
    have e1 : (ev.subtype == some "message_deleted") = false := by
      rw [beq_eq_false_iff_ne]
      exact h1
    have e2 : (ev.subtype == some "message_changed") = false := by
      rw [beq_eq_false_iff_ne]
      exact h2
    rw [e1, e2]
    simp
  obtain ⟨c0, cr, hch⟩ : ∃ c0 cr, ev.channel.data = c0 :: cr := by
    cases hc : ev.channel.data with
    | nil =>
      rw [hc] at hD
      simp at hD
    | cons a l => exact ⟨a, l, rfl⟩
  have hc0 : (c0 == 'D') = false := by
    rw [beq_eq_false_iff_ne]
    rw [hch] at hD
    simpa using hD
  have hrun : handle_message b tfq tfn fresh st ev =
      (match pySplit etext with
       | _ :: a1 :: _ =>
         if uuid4Match a1 then handle_query b tfq st { ev with text := some ("id:" ++ a1) }
         else (st, none)
       | _ => (st, some PyExc.indexError)) := by
    unfold handle_message
    rw [hnp]
    dsimp only
    rw [htext]
    dsimp only
    have e3 : (ev.subtype == some "bot_message") = false := by
      rw [beq_eq_false_iff_ne]
      exact h3
    rw [e3]
    simp only [Bool.false_eq_true, if_false]
    rw [hch]
    dsimp only
    rw [hc0]
    simp only [Bool.false_eq_true, if_false]
    have e4 : (takeStr 12 etext == "<@UJ8U80MKL>") = true := by
      rw [beq_iff_eq]
      exact hm
    rw [e4]
    simp only [if_true]
  refine ⟨?_, ?_, ?_⟩
  · rw [hrun]
    cases hsp : pySplit etext with
    | nil => rfl
    | cons t0 tl =>
      cases tl with
      | nil => rfl
      | cons a1 r2 =>
        dsimp only
        by_cases hu : uuid4Match a1 = true
        · rw [hu]
          simp only [if_true]
          exact (handle_query_spec b tfq st { ev with text := some ("id:" ++ a1) }).2.2
        · rw [Bool.not_eq_true] at hu
          rw [hu]
          simp only [Bool.false_eq_true, if_false]
  · intro t0 a1 rest2 hsp
    rw [hrun, hsp]
    dsimp only
    constructor
    · intro hu
      rw [hu]
      simp only [if_true]
    · intro hu
      rw [hu]
      simp only [Bool.false_eq_true, if_false]
  · intro t0 hsp
    rw [hrun, hsp]

/-- Witness for C9 at a concrete mention event carrying a UUID. -/
theorem thmC9_witness :
    uuid4Match "12345678-1234-4123-8123-123456789abc" = true ∧
    handle_message exBackend exTfq exTfn "u7" exSt exEvMention =
      handle_query exBackend exTfq exSt
        { exEvMention with text := some "id:12345678-1234-4123-8123-123456789abc" } :=
  ⟨by decide,
   ((thmC9 exBackend exTfq exTfn "u7" exSt exEvMention
      "<@UJ8U80MKL> 12345678-1234-4123-8123-123456789abc" rfl (by decide) (by decide)
      (by decide) (by decide) (by decide)).2.1 "<@UJ8U80MKL>"
      "12345678-1234-4123-8123-123456789abc" [] (by decide)).1 (by decide)⟩

/-- C10 (confirmed): after a channel-directory refresh, every entry
obtained from the groups list (which the backend always marks with the
is_group key) is recorded in the visibility table with is-private true
regardless of its is_private field, and the visibility gate then answers
exactly membership in the entry's member set, so a requester is admitted
only if they are a member. -/
theorem thmC10 (b : Backend) (st : St) (e : Convo)
    (he : e ∈ b.groups_list)
    (hg : ∀ g ∈ b.groups_list, g.has_is_group = true) :
    ∃ inf : ChannelInfo,
      dget (update_channels b st).env.channel_info e.id = some inf ∧
      inf.is_private = true ∧
      (∀ u : String,
        can_query_channel (update_channels b st).env e.id u =
          Except.ok (some (inf.members.contains u))) := by
  have hfold : (update_channels b st).env.channel_info =
      (b.channels_list ++ b.groups_list).foldl
        (fun acc m => dset acc m.id (convoInfo m)) st.env.channel_info := rfl
  have hmem := dget_chanFold_mem (fun inf => inf.is_private = true) e.id b.groups_list
    ⟨e, he, rfl⟩
    (fun m hm _ => by
      show (convoInfo m).is_private = true
      unfold convoInfo
      simp [hg m hm])
    ((b.channels_list).foldl (fun acc m => dset acc m.id (convoInfo m)) st.env.channel_info)
  obtain ⟨inf, hinf, hpriv⟩ := hmem
  have hget : dget (update_channels b st).env.channel_info e.id = some inf := by
    rw [hfold, List.foldl_append]
    exact hinf
  refine ⟨inf, hget, hpriv, ?_⟩
  intro u
  unfold can_query_channel
  have hdm : dmem (update_channels b st).env.id_channel e.id = true := by
    show dmem ((b.channels_list ++ b.groups_list).map (fun m => (m.id, m.name))) e.id = true
    unfold dmem
    rw [List.any_eq_true]
    exact ⟨(e.id, e.name), List.mem_map_of_mem _ (List.mem_append_right _ he), by simp⟩
  rw [hdm]
  simp only [if_true]
  rw [hget]
  dsimp only
  rw [hpriv]
  simp

/-- Witness for C10 on a backend whose group reports is_private
false. -/
theorem thmC10_witness :
    (⟨"secret", "G1", true, false, ["U9"]⟩ : Convo) ∈ exBackendG.groups_list ∧
    ∃ inf : ChannelInfo,
      dget (update_channels exBackendG exSt).env.channel_info "G1" = some inf ∧
      inf.is_private = true ∧
      (∀ u : String, can_query_channel (update_channels exBackendG exSt).env "G1" u =
        Except.ok (some (inf.members.contains u))) :=
  ⟨by decide, thmC10 exBackendG exSt ⟨"secret", "G1", true, false, ["U9"]⟩ (by decide)
    (by decide)⟩

/-- C5 (amended): a query containing a `from:<name>` filter whose name
does not resolve after one directory refresh fails with a user-input
error naming `<name>` exactly as typed, delivered to the requesting
channel; the messages table is never read (no SELECT is issued), but the
refresh triggered by the miss writes the fetched user rows to the
store. -/
theorem thmC5 (b : Backend) (tfq : Int → String) (st st1 : St) (ev : Event)
    (etext : String) (pre rest : List String) (t v : String) (ps1 : Plan)
    (htext : ev.text = some etext)
    (hsplit : pySplit (strLower etext) = pre ++ t :: rest)
    (hid : (takeStr 3 ((pre ++ t :: rest).headD "") == "id:") = false)
    (htok : charSplit ':' t = ["from", v])
    (hemoji : emojiShape t = false)
    (hpre : processTokens b st initPlan pre = (st1, Except.ok ps1))
    (hmiss : (get_user_id b st1 (pyStrip (stripAt v))).2 = none) :
    (handle_query b tfq st ev).2 = none ∧
    (handle_query b tfq st ev).1.sent =
      st.sent ++ [("User " ++ v ++ " not found", ev.channel)] ∧
    (handle_query b tfq st ev).1.ops.filter StoreOp.isSelect =
      st.ops.filter StoreOp.isSelect ∧
    ∃ rows, StoreOp.insertUsers rows ∈ (handle_query b tfq st ev).1.ops := by
  have htokstep : processToken b st1 ps1 t =
      ((get_user_id b st1 (pyStrip (stripAt v))).1,
        Except.error (PyExc.valueError ("User " ++ v ++ " not found"))) := by
    unfold processToken
    rw [hemoji, htok]
    simp only [Bool.false_eq_true, if_false]
    norm_num
    rw [hmiss]
  have hparams : processTokens b st initPlan (pre ++ t :: rest) =
      ((get_user_id b st1 (pyStrip (stripAt v))).1,
        Except.error (PyExc.valueError ("User " ++ v ++ " not found"))) := by
    rw [processTokens_append, hpre]
    dsimp only
    rw [processTokens_cons, htokstep]
  obtain ⟨p0, tl, hlist⟩ : ∃ p0 tl, pre ++ t :: rest = p0 :: tl := by
    cases pre with
    | nil => exact ⟨t, rest, rfl⟩
    | cons a l => exact ⟨a, l ++ t :: rest, rfl⟩
  have hrun : handle_query b tfq st ev =
      (send_message (get_user_id b st1 (pyStrip (stripAt v))).1
        ("User " ++ v ++ " not found") ev.channel, none) := by
    unfold handle_query
    rw [htext]
    dsimp only
    rw [hsplit, hlist]
    dsimp only
    have hid2 : (takeStr 3 p0 == "id:") = false := by
      rw [hlist] at hid
      simpa using hid
    rw [hid2]
    simp only [Bool.false_eq_true, if_false]
    rw [← hlist, hparams]
  have href1 : RefreshOnly st st1 := by
    have h := processTokens_refresh b pre st initPlan
    rw [hpre] at h
    exact h
  have href : RefreshOnly st (get_user_id b st1 (pyStrip (stripAt v))).1 :=
    refreshOnly_trans href1 (get_user_id_refresh b st1 _)
  rw [hrun]
  refine ⟨rfl, ?_, ?_, ?_⟩
  · show (get_user_id b st1 (pyStrip (stripAt v))).1.sent ++ _ = _
    rw [href.1]
  · show (get_user_id b st1 (pyStrip (stripAt v))).1.ops.filter _ = _
    exact refreshOnly_select href
  · have hdm : dmem st1.env.user_id (pyStrip (stripAt v)) = false := by
      by_contra hcon
      rw [Bool.not_eq_false] at hcon
      have hiso := dmem_eq_isSome st1.env.user_id (pyStrip (stripAt v))
      rw [hcon] at hiso
      have h2 : (get_user_id b st1 (pyStrip (stripAt v))).2 =
          dget st1.env.user_id (pyStrip (stripAt v)) := by
        unfold get_user_id
        rw [hcon]
        simp
      rw [hmiss] at h2
      rw [← h2] at hiso
      simp at hiso
    have hgu : (get_user_id b st1 (pyStrip (stripAt v))).1 = update_users b st1 := by
      unfold get_user_id
      rw [hdm]
      simp
    refine ⟨b.members.map (fun m => (m.name, m.id, m.image_72.getD avatarDefault)), ?_⟩
    show StoreOp.insertUsers _ ∈ (get_user_id b st1 (pyStrip (stripAt v))).1.ops
    rw [hgu]
    show StoreOp.insertUsers _ ∈ st1.ops ++ [StoreOp.insertUsers _]
    exact List.mem_append_right _ (List.mem_singleton.mpr rfl)

/-- Witness for C5 at the concrete `hi from:alice` query. -/
theorem thmC5_witness :
    charSplit ':' "from:alice" = ["from", "alice"] ∧
    (handle_query exBackend exTfq exSt exEvFrom).2 = none ∧
    (handle_query exBackend exTfq exSt exEvFrom).1.sent =
      exSt.sent ++ [("User " ++ "alice" ++ " not found", exEvFrom.channel)] ∧
    (handle_query exBackend exTfq exSt exEvFrom).1.ops.filter StoreOp.isSelect =
      exSt.ops.filter StoreOp.isSelect ∧
    ∃ rows, StoreOp.insertUsers rows ∈ (handle_query exBackend exTfq exSt exEvFrom).1.ops :=
  ⟨by decide,
   thmC5 exBackend exTfq exSt exSt exEvFrom "hi from:alice" ["hi"] [] "from:alice" "alice"
     ⟨["hi"], none, none, none, 10⟩ rfl (by decide) (by decide) (by decide) (by decide)
     (by decide) (by decide)⟩

end Archivebot
